import Mathlib

/-!
Verification development for the card-prediction engine of this repository.

The engine lives in `card_predictor677.py` (the most complete variant) and
`card_predictor.py` (an earlier variant that diverges on a few points).  The
677 variant is embedded in the root `CardBot` namespace; the pieces of
`card_predictor.py` that diverge (its `collect_inter_data` has no duplicate
check, its `check_value_Q_in_first_parentheses` returns the found card) are
embedded under `CardBot.CP`.

Messages are Lean `String`s.  The regular-expression searches of the source
are implemented as explicit scans over the character list: each scan tries a
match at every position from left to right, exactly as `re.search` and
`re.findall` do on these patterns (none of the patterns involved can
backtrack into a different-length match, so maximal-munch scanning is
equivalent).  Emoji made of a base scalar plus the variation selector
U+FE0F (the suit glyphs, the hearts) are two Lean `Char`s, matching their
two-codepoint representation in Python strings.

Floating-point wall-clock times (`time.time()`) are modelled as rationals;
the engine only adds and compares them.  Write-only timestamp fields
(`date`, `date_resultat`, stored via `datetime.now().isoformat()` and never
read by any logic) are omitted from the records.  Persistence calls
(`_save_all_data`, `_save_data`) are I/O mirrors of the in-memory state and
are not modelled.
-/

namespace CardBot

/-- Numeric value of a run of decimal digits, as Python `int()` computes it. -/
def digitsToNat (ds : List Char) : Nat :=
  ds.foldl (fun a c => 10 * a + (c.toNat - 48)) 0

/-- First match of `#N(\d+)\.` (with `re.IGNORECASE`, so `n` also matches),
returning the captured number, scanning positions left to right. -/
def searchHashN : List Char → Option Nat
  | [] => none
  | '#' :: c :: rest =>
      if c = 'N' ∨ c = 'n' then
        let ds := rest.takeWhile Char.isDigit
        let rest2 := rest.dropWhile Char.isDigit
        if ds ≠ [] ∧ rest2.head? = some '.' then some (digitsToNat ds)
        else searchHashN (c :: rest)
      else searchHashN (c :: rest)
  | _ :: rest => searchHashN rest

/-- First match of the fallback game-number pattern `🔵(\d+)🔵`. -/
def searchBlue : List Char → Option Nat
  | [] => none
  | '🔵' :: rest =>
      let ds := rest.takeWhile Char.isDigit
      let rest2 := rest.dropWhile Char.isDigit
      if ds ≠ [] ∧ rest2.head? = some '🔵' then some (digitsToNat ds)
      else searchBlue rest
  | _ :: rest => searchBlue rest

/-- `extract_game_number` of `card_predictor677.py`: the `#N<digits>.` token,
else the `🔵<digits>🔵` token. -/
def extract_game_number (message : String) : Option Nat :=
  (searchHashN message.data).orElse (fun _ => searchBlue message.data)

/-- First match of `#T(\d+)` (module-level `extract_total_points`). -/
def searchHashT : List Char → Option Nat
  | [] => none
  | '#' :: c :: rest =>
      if c = 'T' then
        let ds := rest.takeWhile Char.isDigit
        if ds ≠ [] then some (digitsToNat ds) else searchHashT (c :: rest)
      else searchHashT (c :: rest)
  | _ :: rest => searchHashT rest

/-- `extract_total_points(msg)`: the total-points token `#T<digits>`. -/
def extract_total_points (message : String) : Option Nat :=
  searchHashT message.data

/-- One pass implementing `re.findall` for the pattern `\(([^)]*)\)`:
outside a group, an opening bracket starts collecting; inside, the first
closing bracket emits the collected content.  An unclosed trailing group is
discarded, as the regex would. -/
def parenGroupsAux : List Char → Option (List Char) → List (List Char)
  | [], _ => []
  | c :: rest, none =>
      if c = '(' then parenGroupsAux rest (some []) else parenGroupsAux rest none
  | c :: rest, some cur =>
      if c = ')' then cur.reverse :: parenGroupsAux rest none
      else parenGroupsAux rest (some (c :: cur))

/-- All parenthesized groups of the message, in order. -/
def allParenGroups (l : List Char) : List (List Char) :=
  parenGroupsAux l none

/-- Python `str.strip()` whitespace test, for the characters that occur here. -/
def isSpaceChar (c : Char) : Bool :=
  c = ' ' ∨ c = '\t' ∨ c = '\n' ∨ c = '\r'

/-- Python `str.strip()`. -/
def stripChars (l : List Char) : List Char :=
  ((l.dropWhile isSpaceChar).reverse.dropWhile isSpaceChar).reverse

/-- `extract_first_parentheses_content`: the first `\(([^)]*)\)` match,
stripped.  (The caller-side falsiness test treats an empty result like a
missing one; callers below check emptiness explicitly.) -/
def extract_first_parentheses_content (message : String) : Option (List Char) :=
  (allParenGroups message.data).head?.map stripChars

/-- `content.replace("❤️", "♥️")`: the two-codepoint heart variant is
normalized to the canonical heart, keeping the variation selector. -/
def normalizeHearts : List Char → List Char
  | [] => []
  | '❤' :: '\uFE0F' :: rest => '♥' :: '\uFE0F' :: normalizeHearts rest
  | c :: rest => c :: normalizeHearts rest

/-- Base scalar of one of the four suit glyphs `♠️ ♥️ ♦️ ♣️`. -/
def isSuitBase (c : Char) : Bool :=
  c = '♠' ∨ c = '♥' ∨ c = '♦' ∨ c = '♣'

/-- Rank letter of the class `[AKQJ]` under `re.IGNORECASE`. -/
def isRankLetter (c : Char) : Bool :=
  c = 'A' ∨ c = 'K' ∨ c = 'Q' ∨ c = 'J' ∨
  c = 'a' ∨ c = 'k' ∨ c = 'q' ∨ c = 'j'

/-- Try to match `(\d+|[AKQJ])(♠️|♥️|♦️|♣️)` at the head of the list,
returning the uppercased value characters, the two-character suit and the
remaining characters. -/
def matchCardAt : List Char → Option (List Char × List Char × List Char)
  | [] => none
  | c :: rest =>
      if c.isDigit then
        let ds := (c :: rest).takeWhile Char.isDigit
        match (c :: rest).dropWhile Char.isDigit with
        | s :: '\uFE0F' :: rest2 =>
            if isSuitBase s then some (ds, [s, '\uFE0F'], rest2) else none
        | _ => none
      else if isRankLetter c then
        match rest with
        | s :: '\uFE0F' :: rest2 =>
            if isSuitBase s then some ([c.toUpper], [s, '\uFE0F'], rest2) else none
        | _ => none
      else none

/-- Non-overlapping left-to-right scan for card tokens, as `re.findall`
does: on a match the scan resumes after the match, otherwise it advances one
character.  The fuel argument bounds the number of scan steps; every step
consumes at least one character, so fuel equal to the length is enough. -/
def extractCardsAux : Nat → List Char → List (List Char × List Char)
  | 0, _ => []
  | _ + 1, [] => []
  | fuel + 1, c :: rest =>
      match matchCardAt (c :: rest) with
      | some (v, su, rest2) => (v, su) :: extractCardsAux fuel rest2
      | none => extractCardsAux fuel rest

/-- `extract_card_details(content)`: normalize hearts, then find all
value-suit pairs. -/
def extract_card_details (content : List Char) : List (List Char × List Char) :=
  extractCardsAux (normalizeHearts content).length (normalizeHearts content)

/-- `get_first_two_cards(content)`: the first two cards, rendered back to
strings as the f-string `v + costume` does. -/
def get_first_two_cards (content : List Char) : List String :=
  ((extract_card_details content).take 2).map (fun p => (p.1 ++ p.2).asString)

/-- The list of card values of a group, as strings (`card_values` in the
source). -/
def cardValues (content : List Char) : List String :=
  (extract_card_details content).map (fun p => p.1.asString)

/-- Python truthiness of an `Optional[bool]`. -/
def truthy : Option Bool → Bool
  | some b => b
  | none => false

/-- `check_value_Q_in_first_parentheses` of `card_predictor677.py`: `None`
when the first group is missing or empty (falsy), otherwise whether some
card of the first group has value `Q`. -/
def check_value_Q_in_first_parentheses (message : String) : Option Bool :=
  match extract_first_parentheses_content message with
  | none => none
  | some c =>
      if c = [] then none
      else some ((extract_card_details c).any (fun p => p.1.asString = "Q"))

/-- Word character for the `\b` boundaries of `\b[OR]\b` (ASCII
approximation of the Python word class; the messages involved only use
ASCII word characters around these tags). -/
def isWordChar (c : Char) : Bool :=
  c.isAlphanum || c = '_'

/-- Scan for `\b[OR]\b`, keeping the previous character to decide the left
boundary. -/
def orTagAux : Option Char → List Char → Bool
  | _, [] => false
  | prev, c :: rest =>
      if (c = 'O' || c = 'R')
          && (match prev with | some p => !(isWordChar p) | none => true)
          && (match rest.head? with | some n => !(isWordChar n) | none => true)
      then true
      else orTagAux (some c) rest

/-- `re.search(r'\b[OR]\b', message)` as a Boolean. -/
def hasORTag (message : String) : Bool :=
  orTagAux none message.data

/-- Single-character membership, for the status glyphs (`'🕐' in message`
and the like: each of those glyphs is a single scalar). -/
def containsChar (message : String) (c : Char) : Bool :=
  message.data.contains c

/-- The shared pending-or-unfinalized filter expression
`'🕐' in m or '⏰' in m or not ('✅' in m or '🔰' in m)` that appears both in
`should_predict` and in `verify`. -/
def unresolvedFilter (message : String) : Bool :=
  containsChar message '🕐' || containsChar message '⏰' ||
    !(containsChar message '✅' || containsChar message '🔰')

/-- `HIGH_VALUE_CARDS` constant. -/
def HIGH_VALUE_CARDS : List String := ["A", "K", "Q", "J"]

/-- One value of the `self.predictions` dict: the pending-prediction record
written by `make_prediction`.  (`final_message` is only ever written to
records that are popped in the same step, so it is not kept.) -/
structure PredRecord where
  predicted_costume : String
  status : String
  predicted_from : Nat
  verification_count : Int
  message_text : String
  message_id : Option Nat
  confidence : String
deriving Repr, DecidableEq

/-- One value of the `self.sequential_history` dict (the write-only `date`
timestamp is omitted). -/
structure HistEntry where
  cartes : List String
deriving Repr, DecidableEq

/-- One element of the `self.inter_data` list (the write-only
`date_resultat` timestamp is omitted). -/
structure InterEntry where
  numero_resultat : Nat
  declencheur : List String
  numero_declencheur : Int
  carte_q : String
deriving Repr, DecidableEq

/-- One element of the `self.smart_rules` list. -/
structure SmartRule where
  cards : List String
  count : Nat
deriving Repr, DecidableEq

/-- The mutable state of a `CardPredictor` instance.  Python dicts keyed by
game number are association lists in insertion order with unique keys;
`processed_messages` is a set of game numbers (677 variant). -/
structure PState where
  predictions : List (Nat × PredRecord)
  processed_messages : List Nat
  last_prediction_time : ℚ
  sequential_history : List (Nat × HistEntry)
  inter_data : List InterEntry
  is_inter_mode_active : Bool
  smart_rules : List SmartRule
  prediction_cooldown : ℚ
deriving Repr, DecidableEq

/-- The state of a fresh instance with no persisted files
(`_load_data` defaults, `prediction_cooldown = 30`). -/
def initState : PState :=
  { predictions := []
    processed_messages := []
    last_prediction_time := 0
    sequential_history := []
    inter_data := []
    is_inter_mode_active := false
    smart_rules := []
    prediction_cooldown := 30 }

/-- Dict read `d.get(k)`, with the key compared as an integer so that the
negative indices `game_number - 2` and `game_number - 1` of the source work
unchanged. -/
def lookupKey {α : Type} (k : Int) (l : List (Nat × α)) : Option α :=
  (l.find? (fun p => (p.1 : Int) == k)).map Prod.snd

/-- Dict write `d[k] = v`: replace in place when the key exists, else append
(Python dicts keep insertion order). -/
def upsert {α : Type} (k : Nat) (v : α) (l : List (Nat × α)) : List (Nat × α) :=
  if l.any (fun p => p.1 == k) then l.map (fun p => if p.1 == k then (k, v) else p)
  else l ++ [(k, v)]

/-- `can_make_prediction`: true when no prediction was ever made
(`last_prediction_time` falsy, that is zero) or the cooldown has elapsed. -/
def can_make_prediction (s : PState) (now : ℚ) : Bool :=
  if s.last_prediction_time = 0 then true
  else decide (now > s.last_prediction_time + s.prediction_cooldown)

/-- `count_absence_q`: with no INTER data, the size of the sequential
history; otherwise the number of recorded games beyond the last game at
which a `Q` result was collected. -/
def count_absence_q (s : PState) : Nat :=
  if s.inter_data.isEmpty then s.sequential_history.length
  else
    let last_q_game := (s.inter_data.map (fun e => e.numero_resultat)).foldl max 0
    (s.sequential_history.filter (fun p => decide (p.1 > last_q_game))).length

/-- `collect_inter_data` of `card_predictor677.py`: record the current game
in the sequential history when its first group yields two cards, append an
INTER entry when `Q` is found at `N` and a trigger exists at `N-2` and the
game is not already recorded, then evict history entries older than 50
games. -/
def collect_inter_data (s : PState) (game_number : Nat) (message : String) : PState :=
  match extract_first_parentheses_content message with
  | none => s
  | some content =>
    if content = [] then s
    else
      let first_two_cards := get_first_two_cards content
      let s1 :=
        if first_two_cards.length = 2 then
          { s with sequential_history :=
              upsert game_number ⟨first_two_cards⟩ s.sequential_history }
        else s
      let q_found := truthy (check_value_Q_in_first_parentheses message)
      let s2 :=
        if q_found then
          let n_minus_2_game : Int := (game_number : Int) - 2
          match lookupKey n_minus_2_game s1.sequential_history with
          | some trigger_entry =>
            let is_duplicate := s1.inter_data.any (fun e => e.numero_resultat == game_number)
            if is_duplicate then s1
            else
              { s1 with inter_data :=
                  s1.inter_data ++
                    [InterEntry.mk game_number trigger_entry.cartes n_minus_2_game "Q"] }
          | none => s1
        else s1
      let obsolete_game_limit : Int := (game_number : Int) - 50
      { s2 with sequential_history :=
          s2.sequential_history.filter (fun p => decide ((p.1 : Int) ≥ obsolete_game_limit)) }

/-- Stable insertion: the new element goes after every element that
`before` keeps in front of it. -/
def stableInsert {α : Type} (before : α → α → Bool) (x : α) : List α → List α
  | [] => [x]
  | y :: ys => if before y x then y :: stableInsert before x ys else x :: y :: ys

/-- Stable sort by repeated insertion, processing elements left to right, so
elements the comparison ties keep their input order — the guarantee Python
`sorted` gives. -/
def stableSort {α : Type} (before : α → α → Bool) (l : List α) : List α :=
  l.foldl (fun acc x => stableInsert before x acc) []

/-- The comparison of `sorted(declencheur_counts.items(), key=..., reverse=True)`:
an already-placed pair stays in front of a new one when its count is at
least as large (descending, stable). -/
def byCountDesc (a b : List String × Nat) : Bool :=
  decide (b.2 ≤ a.2)

/-- One `declencheur_counts[key] = declencheur_counts.get(key, 0) + 1` step:
bump in place, or append a new key with count 1 (dict insertion order, so
keys stay in first-seen order). -/
def bumpCount (key : List String) : List (List String × Nat) → List (List String × Nat)
  | [] => [(key, 1)]
  | (k, c) :: rest =>
      if k = key then (k, c + 1) :: rest else (k, c) :: bumpCount key rest

/-- The `declencheur_counts` dict of `analyze_and_set_smart_rules`, built
over the INTER data; keys appear in first-seen order. -/
def declCounts (l : List InterEntry) : List (List String × Nat) :=
  l.foldl (fun acc e => bumpCount e.declencheur acc) []

/-- The rule list computed by `analyze_and_set_smart_rules`: the three
trigger pairs with the highest counts, stably sorted descending. -/
def analyzeSmartRules (l : List InterEntry) : List SmartRule :=
  ((stableSort byCountDesc (declCounts l)).take 3).map (fun p => SmartRule.mk p.1 p.2)

/-- `analyze_and_set_smart_rules` of `card_predictor677.py` as a state
transformer: stores the top-3 rules and, except on the initial load, sets
the INTER mode active exactly when the rule list is non-empty. -/
def analyze_and_set_smart_rules (s : PState) (initial_load : Bool) : PState :=
  let top_3 := analyzeSmartRules s.inter_data
  { s with
    smart_rules := top_3
    is_inter_mode_active :=
      if initial_load then s.is_inter_mode_active else !top_3.isEmpty }

/-- Value prefix of a stored card string, as `re.match(r'(\d+|[AKQJ])', c)`
reads it back in rule 8 (anchored at the start, case sensitive). -/
def prefixValue (c : List Char) : Option String :=
  match c with
  | [] => none
  | d :: _ =>
      if d.isDigit then some ((c.takeWhile Char.isDigit).asString)
      else if d = 'A' ∨ d = 'K' ∨ d = 'Q' ∨ d = 'J' then some ([d].asString)
      else none

/-- The `previous_values` list comprehension of rule 8: parse each stored
card, keeping only those the pattern matches. -/
def previousValues (cards : List String) : List String :=
  cards.filterMap (fun c => prefixValue c.data)

/-- The 8-rule cascade of `should_predict` (677), lines 340-392: rules 1-6
as an if/elif chain — note that when the INTER mode is active with a
non-empty rule list the chain commits to rule 1 even if no trigger matches —
followed by the rule 7/8 block that runs whenever nothing was predicted
yet.  Returns the `(predicted_value, confidence)` pair. -/
def evalRules (s : PState) (message : String) (game_number : Nat)
    (first_group_content : List Char) : Option (String × String) :=
  let card_values := cardValues first_group_content
  let total_points := extract_total_points message
  let all_matches := allParenGroups message.data
  let second_group_content := all_matches.getD 1 []
  let second_group_values := cardValues second_group_content
  let chain : Option (String × String) :=
    if s.is_inter_mode_active && !s.smart_rules.isEmpty then
      if s.smart_rules.any (fun rule => rule.cards == get_first_two_cards first_group_content)
      then some ("Q", "INTER") else none
    else if card_values.count "J" == 1
        && !(card_values.any (fun v => v == "A" || v == "K" || v == "Q")) then
      some ("Q", "98%")
    else if 2 ≤ card_values.count "J" then some ("Q", "57%")
    else if (match total_points with | some t => decide (t > 40) | none => false) then
      some ("Q", "97%")
    else if 3 ≤ count_absence_q s then some ("Q", "60%")
    else if ["8", "9", "10"].all (fun v => card_values.contains v)
        || ["8", "9", "10"].all (fun v => second_group_values.contains v) then
      some ("Q", "70%")
    else none
  match chain with
  | some pv => some pv
  | none =>
    let has_k_j_g1 := card_values.contains "K" && card_values.contains "J"
    let is_o_r_tag := hasORTag message
    let is_current_g1_weak := !(card_values.any (fun v => HIGH_VALUE_CARDS.contains v))
    let previous_entry := lookupKey ((game_number : Int) - 1) s.sequential_history
    let is_prev_g1_weak :=
      if is_current_g1_weak then
        match previous_entry with
        | some pe => !((previousValues pe.cartes).any (fun v => HIGH_VALUE_CARDS.contains v))
        | none => false
      else false
    if has_k_j_g1 || is_o_r_tag || (is_current_g1_weak && is_prev_g1_weak) then
      some ("Q", "70%")
    else none

/-- `make_prediction` (677): render the pending message for `game + 2` with
the optional confidence tag and insert the pending record. -/
def make_prediction (s : PState) (game_number : Nat) (predicted_value : String)
    (confidence : String) : PState × String :=
  let target_game := game_number + 2
  let confidence_tag := if confidence ≠ "" then " (" ++ confidence ++ ")" else ""
  let prediction_text :=
    "🔵" ++ toString target_game ++ "🔵:Valeur Q statut :⏳" ++ confidence_tag
  let _ := predicted_value
  let new_record := PredRecord.mk "Q" "pending" game_number 0 prediction_text none confidence
  ({ s with predictions := upsert target_game new_record s.predictions },
   prediction_text)

/-- The result quadruple of `should_predict`. -/
structure ShouldPredictResult where
  fire : Bool
  game : Option Nat
  value : Option String
  text : Option String
deriving Repr, DecidableEq

/-- The `False, None, None, None` return. -/
def noPredict : ShouldPredictResult := ⟨false, none, none, none⟩

/-- `should_predict` of `card_predictor677.py`.  The wall-clock reading
`time.time()` is the explicit `now` argument.  Data collection for INTER
runs before the pending filter; the final section applies the `Q`-present
veto, the cooldown, and the per-game deduplication before emitting. -/
def should_predict (s : PState) (message : String) (now : ℚ) :
    ShouldPredictResult × PState :=
  match extract_game_number message with
  | none => (noPredict, s)
  | some game_number =>
    if game_number = 0 then (noPredict, s)
    else
      let s1 := collect_inter_data s game_number message
      if unresolvedFilter message then (noPredict, s1)
      else
        match extract_first_parentheses_content message with
        | none => (noPredict, s1)
        | some content =>
          if content = [] then (noPredict, s1)
          else
            let card_values := cardValues content
            match evalRules s1 message game_number content with
            | none => (noPredict, s1)
            | some (predicted_value, confidence) =>
              if card_values.contains "Q" then (noPredict, s1)
              else if !(can_make_prediction s1 now) then (noPredict, s1)
              else if s1.processed_messages.contains game_number then (noPredict, s1)
              else
                let s2 := { s1 with
                  processed_messages := s1.processed_messages ++ [game_number]
                  last_prediction_time := now }
                let r := make_prediction s2 game_number predicted_value confidence
                (⟨true, some game_number, some predicted_value, some r.2⟩, r.1)

/-- The resolution dict `verify` returns (`type` is always
`"edit_message"`). -/
structure Resolution where
  rtype : String
  predicted_game : Nat
  message_id : Option Nat
  new_message : String
deriving Repr, DecidableEq

/-- The `status_symbol_map` of `verify`, read at offsets 0, 1, 2. -/
def statusSymbol (offset : Int) : String :=
  if offset = 0 then "✅0️⃣" else if offset = 1 then "✅1️⃣" else "✅2️⃣"

/-- The loop of `verify` over the sorted prediction keys: skip records that
are not pending `Q` records; inside the 0..2 window return a success
resolution when `Q` is found, a failure resolution at offset 2 otherwise;
keep scanning in every other case.  Returns the resolved key with the
resolution. -/
def verifyLoop (s : PState) (text : String) (game_number : Nat) :
    List Nat → Option (Nat × Resolution)
  | [] => none
  | k :: rest =>
    match lookupKey (k : Int) s.predictions with
    | none => verifyLoop s text game_number rest
    | some prediction =>
      if prediction.status ≠ "pending" ∨ prediction.predicted_costume ≠ "Q" then
        verifyLoop s text game_number rest
      else
        let verification_offset : Int := (game_number : Int) - (k : Int)
        let confidence_tag :=
          if prediction.confidence ≠ "" then " (" ++ prediction.confidence ++ ")" else ""
        if 0 ≤ verification_offset ∧ verification_offset ≤ 2 then
          let q_found := truthy (check_value_Q_in_first_parentheses text)
          if q_found then
            let updated_message :=
              "🔵" ++ toString k ++ "🔵:Valeur Q statut :" ++
                statusSymbol verification_offset ++ confidence_tag
            some (k, ⟨"edit_message", k, prediction.message_id, updated_message⟩)
          else if verification_offset = 2 then
            let updated_message :=
              "🔵" ++ toString k ++ "🔵:Valeur Q statut :❌" ++ confidence_tag
            some (k, ⟨"edit_message", k, prediction.message_id, updated_message⟩)
          else verifyLoop s text game_number rest
        else verifyLoop s text game_number rest

/-- `verify` of `card_predictor677.py`: guard on a parseable game number, a
non-empty ledger and a finalized message, then scan pending records in
ascending target order; the first resolved record is popped from the ledger
(`self.predictions.pop`) and its resolution returned.  The source also
writes `status` and `final_message` into the record it is about to pop;
those writes die with the record and are not modelled. -/
def verify (s : PState) (text : String) : Option Resolution × PState :=
  match extract_game_number text with
  | none => (none, s)
  | some game_number =>
    if game_number = 0 then (none, s)
    else if s.predictions.isEmpty then (none, s)
    else if unresolvedFilter text then (none, s)
    else
      let sorted_keys := stableSort (fun a b => decide (a ≤ b)) (s.predictions.map Prod.fst)
      match verifyLoop s text game_number sorted_keys with
      | some (k, r) =>
          (some r, { s with predictions := s.predictions.filter (fun p => p.1 != k) })
      | none => (none, s)

namespace CP

/-- `check_value_Q_in_first_parentheses` of `card_predictor.py`: returns the
value and suit of the first `Q` card of the first group, `None` otherwise. -/
def check_value_Q_in_first_parentheses (message : String) : Option (String × String) :=
  match extract_first_parentheses_content message with
  | none => none
  | some c =>
      if c = [] then none
      else
        ((extract_card_details c).find? (fun p => p.1.asString = "Q")).map
          (fun p => (p.1.asString, p.2.asString))

/-- `collect_inter_data` of `card_predictor.py`: same history recording and
eviction as the 677 variant, but the INTER entry is appended whenever the
`N-2` trigger exists — there is no duplicate check on the resolved game
number — and `carte_q` stores the found card. -/
def collect_inter_data (s : PState) (game_number : Nat) (message : String) : PState :=
  match extract_first_parentheses_content message with
  | none => s
  | some content =>
    if content = [] then s
    else
      let first_two_cards := get_first_two_cards content
      let s1 :=
        if first_two_cards.length = 2 then
          { s with sequential_history :=
              upsert game_number ⟨first_two_cards⟩ s.sequential_history }
        else s
      let s2 :=
        match check_value_Q_in_first_parentheses message with
        | some q_card_details =>
          let n_minus_2_game : Int := (game_number : Int) - 2
          match lookupKey n_minus_2_game s1.sequential_history with
          | some trigger_entry =>
              { s1 with inter_data :=
                  s1.inter_data ++
                    [InterEntry.mk game_number trigger_entry.cartes n_minus_2_game
                      (q_card_details.1 ++ q_card_details.2)] }
          | none => s1
        | none => s1
      let obsolete_game_limit : Int := (game_number : Int) - 50
      { s2 with sequential_history :=
          s2.sequential_history.filter (fun p => decide ((p.1 : Int) ≥ obsolete_game_limit)) }

end CP

/-- The card values of the primary group of a message, empty when the group
is missing or empty — the `card_values` list `should_predict` filters on. -/
def primaryValues (message : String) : List String :=
  match extract_first_parentheses_content message with
  | none => []
  | some c => if c = [] then [] else cardValues c

/-- The first two cards of the primary group of a message, empty when the
group is missing or empty. -/
def primaryFirstTwo (message : String) : List String :=
  match extract_first_parentheses_content message with
  | none => []
  | some c => if c = [] then [] else get_first_two_cards c

/-- Whether a recorded card string is a `Q` card (the stored values are
uppercased, so the value is `Q` exactly when the string starts with it). -/
def cardIsQ (c : String) : Bool :=
  c.data.take 1 = ['Q']

/-- Modelled from the spec: the consecutive-absence counter as §4.4 rule 5
words it — "count of most-recent finalized games, scanning backward from
the latest, with no qualifying rank in their recorded primary-group cards,
stopping at the first game that does have it or at history exhaustion".
Used only to compare the spec wording with `count_absence_q`. -/
def specAbsenceCount (s : PState) : Nat :=
  ((stableSort (fun a b => decide (b ≤ a)) (s.sequential_history.map Prod.fst)).takeWhile
    (fun g =>
      match lookupKey (g : Int) s.sequential_history with
      | some e => !(e.cartes.any cardIsQ)
      | none => false)).length

/-! Concrete states used to instantiate the theorems below. -/

/-- A pending `Q` record targeting the game it is stored under, with a 70%
confidence tag, exactly as `make_prediction 100 "Q" "70%"` writes it. -/
def examplePending : PredRecord :=
  PredRecord.mk "Q" "pending" 100 0 "🔵102🔵:Valeur Q statut :⏳ (70%)" none "70%"

/-- A state holding a single pending prediction at target 102. -/
def exampleSingleState : PState :=
  { initState with predictions := [(102, examplePending)] }

/-- A state holding two pending predictions, at targets 100 and 101. -/
def exampleTwoState : PState :=
  { initState with predictions := [(100, examplePending), (101, examplePending)] }

/-- A state whose three recorded games all contain a `Q` among their stored
cards, with no INTER data collected. -/
def exampleHistoryState : PState :=
  { initState with sequential_history :=
      [(1, ⟨["Q♥️", "5♦️"]⟩), (2, ⟨["Q♠️", "5♦️"]⟩), (3, ⟨["Q♦️", "5♣️"]⟩)] }

/-- A state that already holds the INTER entry for resolved game 5, with the
matching trigger still in the history. -/
def exampleDupState : PState :=
  { initState with
    sequential_history := [(3, ⟨["A♠️", "5♦️"]⟩)]
    inter_data := [InterEntry.mk 5 ["A♠️", "5♦️"] 3 "Q♥️"] }

/-- An INTER entry with a given trigger pair and resolved game number. -/
def mkInterEntry (k : List String) (n : Nat) : InterEntry :=
  InterEntry.mk n k ((n : Int) - 2) "Q"

/-- Trigger pairs for the learner-determinism scenario. -/
def trigA : List String := ["A♠️", "K♦️"]

/-- Second trigger pair, tied in count with `trigA` but seen later. -/
def trigB : List String := ["2♠️", "3♦️"]

/-- Third trigger pair, count 3. -/
def trigC : List String := ["4♠️", "5♦️"]

/-- Fourth trigger pair, count 1, not selected. -/
def trigD : List String := ["6♠️", "7♦️"]

/-- An INTER data list realizing the counts A:5, B:5, C:3, D:1 of the spec
scenario, with A seen before B. -/
def exampleInterList : List InterEntry :=
  [mkInterEntry trigA 1, mkInterEntry trigB 2, mkInterEntry trigA 3,
   mkInterEntry trigC 4, mkInterEntry trigB 5, mkInterEntry trigA 6,
   mkInterEntry trigD 7, mkInterEntry trigB 8, mkInterEntry trigA 9,
   mkInterEntry trigC 10, mkInterEntry trigB 11, mkInterEntry trigA 12,
   mkInterEntry trigB 13, mkInterEntry trigC 14]

/-- The round-trip of the C7 scenario: create a prediction from game 100
with confidence 70%. -/
def exampleRoundTrip : PState × String :=
  make_prediction initState 100 "Q" "70%"

/-! Helper lemmas about the stable insertion sort. -/

theorem stableInsert_perm {α : Type} (b : α → α → Bool) (x : α) :
    ∀ l : List α, List.Perm (stableInsert b x l) (x :: l)
  | [] => List.Perm.refl _
  | y :: ys => by
      unfold stableInsert
      split
      · exact (List.Perm.cons y (stableInsert_perm b x ys)).trans (List.Perm.swap x y ys)
      · exact List.Perm.refl _

theorem stableSort_foldl_perm {α : Type} (b : α → α → Bool) :
    ∀ (l acc : List α),
      List.Perm (l.foldl (fun acc x => stableInsert b x acc) acc) (l ++ acc)
  | [], acc => by simp
  | x :: l, acc => by
      rw [List.foldl_cons]
      refine (stableSort_foldl_perm b l (stableInsert b x acc)).trans ?_
      refine ((List.Perm.append_left l (stableInsert_perm b x acc)).trans ?_)
      exact List.perm_middle

theorem stableSort_perm {α : Type} (b : α → α → Bool) (l : List α) :
    List.Perm (stableSort b l) l := by
  simpa [stableSort] using stableSort_foldl_perm b l []

theorem pairwise_stableInsert_byCountDesc (x : List String × Nat) :
    ∀ l, l.Pairwise (fun a b => b.2 ≤ a.2) →
      (stableInsert byCountDesc x l).Pairwise (fun a b => b.2 ≤ a.2)
  | [], _ => by simp [stableInsert]
  | y :: ys, h => by
      rcases List.pairwise_cons.mp h with ⟨hy, hys⟩
      unfold stableInsert
      by_cases hb : byCountDesc y x = true
      · rw [if_pos hb]
        refine List.pairwise_cons.mpr ⟨?_, pairwise_stableInsert_byCountDesc x ys hys⟩
        intro z hz
        rcases List.mem_cons.mp ((stableInsert_perm byCountDesc x ys).mem_iff.mp hz)
          with hz1 | hz2
        · subst hz1
          simpa [byCountDesc] using hb
        · exact hy z hz2
      · rw [if_neg hb]
        have hxy : y.2 ≤ x.2 := by
          have : ¬ x.2 ≤ y.2 := by simpa [byCountDesc] using hb
          omega
        refine List.pairwise_cons.mpr ⟨?_, h⟩
        intro z hz
        rcases List.mem_cons.mp hz with hz1 | hz2
        · subst hz1; exact hxy
        · exact le_trans (hy z hz2) hxy

theorem pairwise_foldl_byCountDesc :
    ∀ (l acc : List (List String × Nat)),
      acc.Pairwise (fun a b => b.2 ≤ a.2) →
      (l.foldl (fun acc x => stableInsert byCountDesc x acc) acc).Pairwise
        (fun a b => b.2 ≤ a.2)
  | [], _, h => h
  | x :: l, acc, h =>
      pairwise_foldl_byCountDesc l _ (pairwise_stableInsert_byCountDesc x acc h)

theorem pairwise_stableSortCnt (l : List (List String × Nat)) :
    (stableSort byCountDesc l).Pairwise (fun a b => b.2 ≤ a.2) :=
  pairwise_foldl_byCountDesc l [] List.Pairwise.nil

theorem filter_eq_nil_of_head_lt (n : Nat) (y : List String × Nat) (ys : List (List String × Nat))
    (h : (y :: ys).Pairwise (fun a b => b.2 ≤ a.2)) (hy : y.2 < n) :
    (y :: ys).filter (fun p => p.2 == n) = [] := by
  rw [List.filter_eq_nil_iff]
  rcases List.pairwise_cons.mp h with ⟨hle, _⟩
  intro a ha
  rcases List.mem_cons.mp ha with ha1 | ha2
  · subst ha1; simp; omega
  · have := hle a ha2
    simp; omega

theorem filter_stableInsert_byCountDesc (n : Nat) (x : List String × Nat) :
    ∀ l, l.Pairwise (fun a b => b.2 ≤ a.2) →
      (stableInsert byCountDesc x l).filter (fun p => p.2 == n) =
        if x.2 == n then l.filter (fun p => p.2 == n) ++ [x]
        else l.filter (fun p => p.2 == n)
  | [], _ => by
      by_cases hx : (x.2 == n) = true <;> simp [stableInsert, List.filter, hx]
  | y :: ys, h => by
      rcases List.pairwise_cons.mp h with ⟨hy, hys⟩
      unfold stableInsert
      by_cases hb : byCountDesc y x = true
      · rw [if_pos hb]
        rw [List.filter_cons, List.filter_cons]
        by_cases hyn : (y.2 == n) = true <;>
          by_cases hxn : (x.2 == n) = true <;>
            simp [hyn, hxn, filter_stableInsert_byCountDesc n x ys hys]
      · rw [if_neg hb]
        have hlt : y.2 < x.2 := by
          have : ¬ x.2 ≤ y.2 := by simpa [byCountDesc] using hb
          omega
        rw [List.filter_cons]
        by_cases hxn : (x.2 == n) = true
        · have hn : y.2 < n := by
            have hxeq : x.2 = n := by simpa using hxn
            omega
          rw [filter_eq_nil_of_head_lt n y ys h hn]
          simp [hxn, filter_eq_nil_of_head_lt n y ys h hn]
        · simp [hxn]

theorem filter_foldl_byCountDesc (n : Nat) :
    ∀ (l acc : List (List String × Nat)),
      acc.Pairwise (fun a b => b.2 ≤ a.2) →
      (l.foldl (fun acc x => stableInsert byCountDesc x acc) acc).filter
          (fun p => p.2 == n) =
        acc.filter (fun p => p.2 == n) ++ l.filter (fun p => p.2 == n)
  | [], acc, _ => by simp
  | x :: l, acc, h => by
      rw [List.foldl_cons,
        filter_foldl_byCountDesc n l _ (pairwise_stableInsert_byCountDesc x acc h),
        filter_stableInsert_byCountDesc n x acc h, List.filter_cons]
      by_cases hx : (x.2 == n) = true <;> simp [hx]

theorem filter_stableSortCnt (n : Nat) (l : List (List String × Nat)) :
    (stableSort byCountDesc l).filter (fun p => p.2 == n) =
      l.filter (fun p => p.2 == n) := by
  simpa [stableSort] using filter_foldl_byCountDesc n l [] List.Pairwise.nil

/-- Looking up a key that the eviction predicate keeps is unaffected by the
eviction filter. -/
theorem find?_filter_ge {α : Type} (k lim : Int) (hk : k ≥ lim) :
    ∀ l : List (Nat × α),
      (l.filter (fun p => decide ((p.1 : Int) ≥ lim))).find? (fun p => (p.1 : Int) == k) =
        l.find? (fun p => (p.1 : Int) == k)
  | [] => rfl
  | p :: rest => by
      by_cases hp : ((p.1 : Int) == k) = true
      · have hkeep : (decide ((p.1 : Int) ≥ lim)) = true := by
          have hpg : (p.1 : Int) = k := by simpa using hp
          rw [hpg]; exact decide_eq_true hk
        rw [List.filter_cons, if_pos hkeep]
        simp only [List.find?_cons, hp]
      · have hp2 : ((p.1 : Int) == k) = false := by simpa using hp
        rw [List.filter_cons]
        by_cases hq : (decide ((p.1 : Int) ≥ lim)) = true
        · rw [if_pos hq]
          simp only [List.find?_cons, hp2]
          exact find?_filter_ge k lim hk rest
        · rw [if_neg hq]
          simp only [List.find?_cons, hp2]
          exact find?_filter_ge k lim hk rest

/-- `lookupKey` version of `find?_filter_ge`. -/
theorem lookupKey_filter_ge {α : Type} (k lim : Int) (hk : k ≥ lim) (l : List (Nat × α)) :
    lookupKey k (l.filter (fun p => decide ((p.1 : Int) ≥ lim))) = lookupKey k l := by
  unfold lookupKey
  rw [find?_filter_ge k lim hk l]

/-- The INTER list after a 677 `collect_inter_data` call: either unchanged,
or extended by exactly one entry for the current game, and in that case the
duplicate check has certified that no entry for the game was present. -/
theorem collect_inter_data_inter_cases (s : PState) (g : Nat) (m : String) :
    (collect_inter_data s g m).inter_data = s.inter_data ∨
    ((collect_inter_data s g m).inter_data.map (fun e => e.numero_resultat) =
        s.inter_data.map (fun e => e.numero_resultat) ++ [g]
      ∧ s.inter_data.any (fun e => e.numero_resultat == g) = false) := by
  unfold collect_inter_data
  cases hc : extract_first_parentheses_content m
  · exact Or.inl rfl
  case some c =>
    dsimp only
    by_cases hce : c = []
    · rw [if_pos hce]; exact Or.inl rfl
    · rw [if_neg hce]
      dsimp only
      repeat' split
      all_goals
        first
          | exact Or.inl rfl
          | (rename_i hdup
             refine Or.inr ⟨by simp, by simpa using hdup⟩)

/-- C5 (amended): the 677 variant of `collect_inter_data` preserves the
at-most-one-entry-per-resolved-game invariant of the INTER list — when an
entry for the current game number already exists, the duplicate check skips
the append.  (The `card_predictor.py` variant lacks the check and violates
the invariant, see the counterexample.) -/
theorem claim_C5_thm (s : PState) (g : Nat) (m : String)
    (h : (s.inter_data.map (fun e => e.numero_resultat)).Nodup) :
    ((collect_inter_data s g m).inter_data.map (fun e => e.numero_resultat)).Nodup := by
  rcases collect_inter_data_inter_cases s g m with heq | ⟨heq, hany⟩
  · rw [heq]; exact h
  · rw [heq]
    rw [List.nodup_append]
    refine ⟨h, List.nodup_singleton g, ?_⟩
    intro a ha hb
    rcases List.mem_singleton.mp hb with rfl
    rcases List.mem_map.mp ha with ⟨e, he, hea⟩
    have := (List.any_eq_false.mp hany) e he
    simp at this
    exact this (by simpa using hea)

/-- C5 witness: starting from a state already holding the entry for resolved
game 5, the 677 collect call on a second finalized `Q` message for game 5
keeps the resolved-game numbers duplicate-free. -/
theorem claim_C5_witness :
    (exampleDupState.inter_data.map (fun e => e.numero_resultat)).Nodup
    ∧ ((collect_inter_data exampleDupState 5 "✅ #N5. (Q♥️ 2♦️)").inter_data.map
        (fun e => e.numero_resultat)).Nodup :=
  ⟨by decide, claim_C5_thm exampleDupState 5 "✅ #N5. (Q♥️ 2♦️)" (by decide)⟩

/-- C10: when the primary group of a message yields fewer than two parsed
cards, `collect_inter_data` leaves the sequential history unchanged at that
game number (no entry is created or overwritten for it), so the game cannot
later serve as an `N-2` trigger. -/
theorem claim_C10_thm (s : PState) (g : Nat) (m : String)
    (h : (primaryFirstTwo m).length < 2) :
    lookupKey (g : Int) (collect_inter_data s g m).sequential_history =
      lookupKey (g : Int) s.sequential_history := by
  unfold collect_inter_data
  cases hc : extract_first_parentheses_content m with
  | none => rfl
  | some c =>
    dsimp only
    by_cases hce : c = []
    · rw [if_pos hce]
    · rw [if_neg hce]
      dsimp only
      unfold primaryFirstTwo at h
      rw [hc] at h
      dsimp only at h
      rw [if_neg hce] at h
      rw [if_neg (by omega : ¬ (get_first_two_cards c).length = 2)]
      repeat' split
      all_goals exact lookupKey_filter_ge (g : Int) ((g : Int) - 50) (by omega) _

/-- C10 witness: a finalized message for game 7 whose primary group parses
to a single card leaves the history at game 7 unchanged (empty before,
empty after). -/
theorem claim_C10_witness :
    (primaryFirstTwo "✅ #N7. (Q♥️)").length < 2
    ∧ lookupKey (7 : Int) (collect_inter_data initState 7 "✅ #N7. (Q♥️)").sequential_history =
        lookupKey (7 : Int) initState.sequential_history :=
  ⟨by decide, claim_C10_thm initState 7 "✅ #N7. (Q♥️)" (by decide)⟩

/-- C2 (amended): `should_predict` runs `collect_inter_data` before the
pending filter, so a message flagged pending (or not finalized) with a
parseable nonzero game number produces no prediction but still leaves the
state exactly as `collect_inter_data` does — in particular a pending
message with two parseable primary cards does update the sequential
history. -/
theorem claim_C2_thm (s : PState) (m : String) (now : ℚ) (g : Nat)
    (hg : extract_game_number m = some g) (hg0 : g ≠ 0)
    (hu : unresolvedFilter m = true) :
    should_predict s m now = (noPredict, collect_inter_data s g m) := by
  unfold should_predict
  rw [hg]
  dsimp only
  rw [if_neg hg0, if_pos hu]

/-- C2 witness: the pending-flagged message for game 5 yields no prediction
and the post-state is the `collect_inter_data` state. -/
theorem claim_C2_witness :
    extract_game_number "🕐 #N5. (A♠️ 3♦️)" = some 5
    ∧ unresolvedFilter "🕐 #N5. (A♠️ 3♦️)" = true
    ∧ should_predict initState "🕐 #N5. (A♠️ 3♦️)" 0 =
        (noPredict, collect_inter_data initState 5 "🕐 #N5. (A♠️ 3♦️)") :=
  ⟨by decide, by decide,
    claim_C2_thm initState "🕐 #N5. (A♠️ 3♦️)" 0 5 (by decide) (by decide) (by decide)⟩

/-- C3: whenever the qualifying rank `Q` is already among the primary-group
card values of the message, `should_predict` returns fire = false — the veto
`if "Q" in card_values: return False` runs after the rule cascade and before
any emission, so it suppresses every rule, including the total-points one. -/
theorem claim_C3_thm (s : PState) (m : String) (now : ℚ)
    (h : "Q" ∈ primaryValues m) :
    (should_predict s m now).1.fire = false := by
  unfold should_predict
  cases hg : extract_game_number m with
  | none => rfl
  | some g =>
    dsimp only
    by_cases hg0 : g = 0
    · rw [if_pos hg0]; rfl
    · rw [if_neg hg0]
      by_cases hu : unresolvedFilter m = true
      · rw [if_pos hu]; rfl
      · rw [if_neg hu]
        cases hc : extract_first_parentheses_content m with
        | none => unfold primaryValues at h; rw [hc] at h; simp at h
        | some c =>
          dsimp only
          by_cases hce : c = []
          · rw [if_pos hce]; rfl
          · rw [if_neg hce]
            have hmem : "Q" ∈ cardValues c := by
              unfold primaryValues at h
              rw [hc] at h
              dsimp only at h
              rwa [if_neg hce] at h
            have hcv : (cardValues c).contains "Q" = true := by simpa using hmem
            split
            · rfl
            · rw [if_pos hcv]; rfl

/-- C3 witness: a finalized message whose primary group already shows a `Q`
and whose total points 50 exceed the threshold still fires nothing. -/
theorem claim_C3_witness :
    "Q" ∈ primaryValues "✅ #N9. (Q♥️ J♠️) #T50"
    ∧ extract_total_points "✅ #N9. (Q♥️ J♠️) #T50" = some 50
    ∧ (should_predict initState "✅ #N9. (Q♥️ J♠️) #T50" 0).1.fire = false :=
  ⟨by decide, by decide, claim_C3_thm initState "✅ #N9. (Q♥️ J♠️) #T50" 0 (by decide)⟩

/-- `collect_inter_data` never touches the cooldown bookkeeping fields. -/
theorem collect_inter_data_time_fields (s : PState) (g : Nat) (m : String) :
    (collect_inter_data s g m).last_prediction_time = s.last_prediction_time
    ∧ (collect_inter_data s g m).prediction_cooldown = s.prediction_cooldown := by
  unfold collect_inter_data
  cases hc : extract_first_parentheses_content m with
  | none => exact ⟨rfl, rfl⟩
  | some c =>
    dsimp only
    by_cases hce : c = []
    · rw [if_pos hce]; exact ⟨rfl, rfl⟩
    · rw [if_neg hce]
      dsimp only
      repeat' split
      all_goals exact ⟨rfl, rfl⟩

/-- A firing `should_predict` call stamps the emission time with the current
clock and keeps the cooldown length. -/
theorem should_predict_fire_fields (s : PState) (m : String) (now : ℚ)
    (h : (should_predict s m now).1.fire = true) :
    (should_predict s m now).2.last_prediction_time = now
    ∧ (should_predict s m now).2.prediction_cooldown = s.prediction_cooldown := by
  unfold should_predict at h ⊢
  cases hg : extract_game_number m with
  | none => rw [hg] at h; exact absurd h (by simp [noPredict])
  | some g =>
    rw [hg] at h
    dsimp only at h ⊢
    by_cases hg0 : g = 0
    · rw [if_pos hg0] at h; exact absurd h (by simp [noPredict])
    · rw [if_neg hg0] at h ⊢
      by_cases hu : unresolvedFilter m = true
      · rw [if_pos hu] at h; exact absurd h (by simp [noPredict])
      · rw [if_neg hu] at h ⊢
        cases hc : extract_first_parentheses_content m with
        | none => rw [hc] at h; exact absurd h (by simp [noPredict])
        | some c =>
          rw [hc] at h
          dsimp only at h ⊢
          by_cases hce : c = []
          · rw [if_pos hce] at h; exact absurd h (by simp [noPredict])
          · rw [if_neg hce] at h ⊢
            cases he : evalRules (collect_inter_data s g m) m g c with
            | none => rw [he] at h; exact absurd h (by simp [noPredict])
            | some pv =>
              obtain ⟨pvv, conf⟩ := pv
              rw [he] at h
              dsimp only at h ⊢
              by_cases hq : (cardValues c).contains "Q" = true
              · rw [if_pos hq] at h; exact absurd h (by simp [noPredict])
              · rw [if_neg hq] at h ⊢
                by_cases hcm : (!(can_make_prediction (collect_inter_data s g m) now)) = true
                · rw [if_pos hcm] at h; exact absurd h (by simp [noPredict])
                · rw [if_neg hcm] at h ⊢
                  by_cases hpr :
                      (collect_inter_data s g m).processed_messages.contains g = true
                  · rw [if_pos hpr] at h; exact absurd h (by simp [noPredict])
                  · rw [if_neg hpr] at h ⊢
                    exact ⟨rfl, (collect_inter_data_time_fields s g m).2⟩

/-- When a prediction was emitted at a nonzero time and the cooldown has not
elapsed, `should_predict` cannot fire, whatever the message matches. -/
theorem should_predict_no_fire_of_cooldown (s : PState) (m : String) (now : ℚ)
    (h0 : s.last_prediction_time ≠ 0)
    (hcd : now ≤ s.last_prediction_time + s.prediction_cooldown) :
    (should_predict s m now).1.fire = false := by
  unfold should_predict
  cases hg : extract_game_number m with
  | none => rfl
  | some g =>
    dsimp only
    by_cases hg0 : g = 0
    · rw [if_pos hg0]; rfl
    · rw [if_neg hg0]
      by_cases hu : unresolvedFilter m = true
      · rw [if_pos hu]; rfl
      · rw [if_neg hu]
        cases hc : extract_first_parentheses_content m with
        | none => rfl
        | some c =>
          dsimp only
          by_cases hce : c = []
          · rw [if_pos hce]; rfl
          · rw [if_neg hce]
            cases he : evalRules (collect_inter_data s g m) m g c with
            | none => rfl
            | some pv =>
              obtain ⟨pvv, conf⟩ := pv
              dsimp only
              by_cases hq : (cardValues c).contains "Q" = true
              · rw [if_pos hq]; rfl
              · rw [if_neg hq]
                have hfields := collect_inter_data_time_fields s g m
                have hcm : (!(can_make_prediction (collect_inter_data s g m) now)) = true := by
                  unfold can_make_prediction
                  rw [hfields.1, hfields.2, if_neg h0]
                  have hnot : ¬ (now > s.last_prediction_time + s.prediction_cooldown) :=
                    not_lt.mpr hcd
                  simp [hnot]
                rw [if_pos hcm]
                rfl

/-- C9: if a message fires at a nonzero time `t1` and a second message
arrives at `t2` within the cooldown interval (`t2 ≤ t1 + cooldown`, default
30), the second call fires nothing — exactly one prediction is emitted. -/
theorem claim_C9_thm (s : PState) (m1 m2 : String) (t1 t2 : ℚ)
    (hfire : (should_predict s m1 t1).1.fire = true)
    (ht1 : t1 ≠ 0)
    (hwin : t2 ≤ t1 + s.prediction_cooldown) :
    (should_predict s m1 t1).1.fire = true
    ∧ (should_predict (should_predict s m1 t1).2 m2 t2).1.fire = false := by
  refine ⟨hfire, ?_⟩
  have hf := should_predict_fire_fields s m1 t1 hfire
  apply should_predict_no_fire_of_cooldown
  · rw [hf.1]; exact ht1
  · rw [hf.1, hf.2]; exact hwin

/-- C9 witness: a lone-Jack message fires at time 100; an identical-shape
message for the next game at time 110, inside the 30-unit cooldown, does
not fire. -/
theorem claim_C9_witness :
    (should_predict initState "✅ #N10. (J♠️ 3♦️)" 100).1.fire = true
    ∧ (should_predict (should_predict initState "✅ #N10. (J♠️ 3♦️)" 100).2
        "✅ #N11. (J♠️ 4♦️)" 110).1.fire = false :=
  claim_C9_thm initState "✅ #N10. (J♠️ 3♦️)" "✅ #N11. (J♠️ 4♦️)" 100 110
    (by decide) (by norm_num) (by norm_num [initState])

/-- The loop of `verify` only resolves a key it was given, and reports that
key as the resolved target. -/
theorem verifyLoop_some (s : PState) (text : String) (g : Nat) :
    ∀ (keys : List Nat) (k : Nat) (r : Resolution),
      verifyLoop s text g keys = some (k, r) → r.predicted_game = k ∧ k ∈ keys
  | [], k, r, h => by simp [verifyLoop] at h
  | k0 :: rest, k, r, h => by
      unfold verifyLoop at h
      have step : ∀ hrec : verifyLoop s text g rest = some (k, r),
          r.predicted_game = k ∧ k ∈ k0 :: rest := fun hrec =>
        let ih := verifyLoop_some s text g rest k r hrec
        ⟨ih.1, List.mem_cons_of_mem _ ih.2⟩
      cases hl : lookupKey (k0 : Int) s.predictions with
      | none => rw [hl] at h; exact step h
      | some prediction =>
        rw [hl] at h
        dsimp only at h
        by_cases hskip : prediction.status ≠ "pending" ∨ prediction.predicted_costume ≠ "Q"
        · rw [if_pos hskip] at h; exact step h
        · rw [if_neg hskip] at h
          by_cases hwin : 0 ≤ (g : Int) - (k0 : Int) ∧ (g : Int) - (k0 : Int) ≤ 2
          · rw [if_pos hwin] at h
            by_cases hqf : truthy (check_value_Q_in_first_parentheses text) = true
            · rw [if_pos hqf] at h
              simp only [Option.some.injEq, Prod.mk.injEq] at h
              obtain ⟨rfl, rfl⟩ := h
              exact ⟨rfl, List.mem_cons_self _ _⟩
            · rw [if_neg hqf] at h
              by_cases h2 : (g : Int) - (k0 : Int) = 2
              · rw [if_pos h2] at h
                simp only [Option.some.injEq, Prod.mk.injEq] at h
                obtain ⟨rfl, rfl⟩ := h
                exact ⟨rfl, List.mem_cons_self _ _⟩
              · rw [if_neg h2] at h; exact step h
          · rw [if_neg hwin] at h; exact step h

/-- When `verify` returns a resolution, the resolved target was one of the
ledger keys and the post-state ledger is the original one with exactly that
key popped. -/
theorem verify_some_inv (s : PState) (text : String) (r : Resolution) (s2 : PState)
    (h : verify s text = (some r, s2)) :
    s2.predictions = s.predictions.filter (fun p => p.1 != r.predicted_game)
    ∧ r.predicted_game ∈ s.predictions.map Prod.fst := by
  unfold verify at h
  cases hg : extract_game_number text with
  | none => rw [hg] at h; exact absurd h (by simp)
  | some g =>
    rw [hg] at h
    dsimp only at h
    by_cases hg0 : g = 0
    · rw [if_pos hg0] at h; exact absurd h (by simp)
    · rw [if_neg hg0] at h
      by_cases hne : s.predictions.isEmpty = true
      · rw [if_pos hne] at h; exact absurd h (by simp)
      · rw [if_neg hne] at h
        by_cases hu : unresolvedFilter text = true
        · rw [if_pos hu] at h; exact absurd h (by simp)
        · rw [if_neg hu] at h
          cases hvl : verifyLoop s text g
              (stableSort (fun a b => decide (a ≤ b)) (s.predictions.map Prod.fst)) with
          | none => rw [hvl] at h; exact absurd h (by simp)
          | some kr =>
            obtain ⟨k, res⟩ := kr
            rw [hvl] at h
            dsimp only at h
            have hk := verifyLoop_some s text g _ k res hvl
            simp only [Prod.mk.injEq, Option.some.injEq] at h
            obtain ⟨rfl, rfl⟩ := h
            constructor
            · rw [hk.1]
            · rw [hk.1]
              exact ((stableSort_perm (fun a b => decide (a ≤ b))
                (s.predictions.map Prod.fst)).mem_iff).mp hk.2

/-- C6 (amended): verification is idempotent per record — a record resolved
by one `verify` call is popped from the ledger, so a second call with the
same message can never resolve the same target again; it may however
resolve a different, still-pending record (see the counterexample), so only
the per-record reading of the idempotence property holds. -/
theorem claim_C6_thm (s : PState) (text : String) (r r2 : Resolution) (s2 s3 : PState)
    (h : verify s text = (some r, s2)) (h2 : verify s2 text = (some r2, s3)) :
    r2.predicted_game ≠ r.predicted_game := by
  obtain ⟨hpred, _⟩ := verify_some_inv s text r s2 h
  obtain ⟨_, hmem2⟩ := verify_some_inv s2 text r2 s3 h2
  rw [hpred] at hmem2
  rcases List.mem_map.mp hmem2 with ⟨p, hp, hpe⟩
  have hne := (List.mem_filter.mp hp).2
  intro heq
  rw [hpe, heq] at hne
  simp at hne

/-- C6 witness: with targets 100 and 101 pending, the first call resolves
100 and the second call resolves 101 — a different record. -/
theorem claim_C6_witness :
    (Resolution.mk "edit_message" 101 none
        "🔵101🔵:Valeur Q statut :✅1️⃣ (70%)").predicted_game ≠
    (Resolution.mk "edit_message" 100 none
        "🔵100🔵:Valeur Q statut :✅2️⃣ (70%)").predicted_game :=
  claim_C6_thm exampleTwoState "✅ #N102. (Q♥️ 3♦️)"
    (Resolution.mk "edit_message" 100 none "🔵100🔵:Valeur Q statut :✅2️⃣ (70%)")
    (Resolution.mk "edit_message" 101 none "🔵101🔵:Valeur Q statut :✅1️⃣ (70%)")
    { initState with predictions := [(101, examplePending)] }
    { initState with predictions := [] }
    (by decide) (by decide)

/-- C8: the recompute of `analyze_and_set_smart_rules` is a pure function
of the INTER data list (so repeated calls on the same input return the same
rule list in the same order), and the list it returns is characterized by:
it is sorted by descending occurrence count; every counted trigger pair
left out has a count no larger than that of any selected rule; and
restricting either list to one count value yields the selected pairs as a
prefix-sublist of the first-seen-ordered counted pairs, so count ties keep
the first-seen order of the input. -/
theorem claim_C8_thm (l : List InterEntry) (p : List String × Nat) (r : SmartRule) (n : Nat)
    (hp : p ∈ declCounts l)
    (hnp : p.1 ∉ (analyzeSmartRules l).map SmartRule.cards)
    (hr : r ∈ analyzeSmartRules l) :
    (analyzeSmartRules l).Pairwise (fun a b => b.count ≤ a.count)
    ∧ p.2 ≤ r.count
    ∧ List.Sublist
        (((analyzeSmartRules l).filter (fun q => q.count == n)).map SmartRule.cards)
        (((declCounts l).filter (fun q => q.2 == n)).map Prod.fst) := by
  have hpair : (stableSort byCountDesc (declCounts l)).Pairwise (fun a b => b.2 ≤ a.2) :=
    pairwise_stableSortCnt _
  have htake : List.Sublist ((stableSort byCountDesc (declCounts l)).take 3)
      (stableSort byCountDesc (declCounts l)) := List.take_sublist 3 _
  have hrule_eq : analyzeSmartRules l =
      ((stableSort byCountDesc (declCounts l)).take 3).map (fun q => SmartRule.mk q.1 q.2) := rfl
  refine ⟨?_, ?_, ?_⟩
  · rw [hrule_eq, List.pairwise_map]
    exact List.Pairwise.sublist htake hpair
  · have hmem : p ∈ stableSort byCountDesc (declCounts l) :=
      ((stableSort_perm byCountDesc (declCounts l)).mem_iff).mpr hp
    have hsplit := List.take_append_drop 3 (stableSort byCountDesc (declCounts l))
    rw [← hsplit] at hmem hpair
    rcases List.mem_append.mp hmem with hin | hout
    · exfalso
      apply hnp
      rw [hrule_eq, List.map_map]
      exact List.mem_map_of_mem _ hin
    · rw [hrule_eq] at hr
      rcases List.mem_map.mp hr with ⟨q, hq, hqr⟩
      have hle := (List.pairwise_append.mp hpair).2.2 q hq p hout
      rw [← hqr]
      exact hle
  · rw [hrule_eq]
    have hcomm : ((((stableSort byCountDesc (declCounts l)).take 3).map
          (fun q => SmartRule.mk q.1 q.2)).filter (fun q => q.count == n)) =
        (((stableSort byCountDesc (declCounts l)).take 3).filter
          (fun q => q.2 == n)).map (fun q => SmartRule.mk q.1 q.2) := by
      rw [List.filter_map]
      rfl
    rw [hcomm, List.map_map]
    have hsub : List.Sublist
        ((((stableSort byCountDesc (declCounts l)).take 3)).filter (fun q => q.2 == n))
        ((stableSort byCountDesc (declCounts l)).filter (fun q => q.2 == n)) :=
      List.Sublist.filter _ htake
    rw [filter_stableSortCnt] at hsub
    exact List.Sublist.map _ hsub

/-- C8 witness: the spec scenario with counts A:5, B:5, C:3, D:1 and A seen
first — the rule list is descending, the left-out pair D has a count below
the third rule, and the two count-5 rules appear in first-seen order. -/
theorem claim_C8_witness :
    (analyzeSmartRules exampleInterList).Pairwise (fun a b => b.count ≤ a.count)
    ∧ 1 ≤ (SmartRule.mk trigC 3).count
    ∧ List.Sublist
        (((analyzeSmartRules exampleInterList).filter (fun q => q.count == 5)).map
          SmartRule.cards)
        (((declCounts exampleInterList).filter (fun q => q.2 == 5)).map Prod.fst) := by
  exact claim_C8_thm exampleInterList (trigD, 1) (SmartRule.mk trigC 3) 5
    (by decide) (by decide) (by decide)

/-- C4 (amended): rule 5 fires with the 60% tier exactly when the INTER
guard of rule 1 is off (mode inactive or no rules — note the code skips
rules 2-6 whenever the guard holds, even without a trigger match), rules 2-4
do not match, and the code counter `count_absence_q` — which counts recorded
games beyond the last collected `Q` result, never inspecting the recorded
cards — is at least 3.  (The spec counter over the recorded cards is a
different function, see the counterexample.) -/
theorem claim_C4_thm (s : PState) (m : String) (g : Nat) (content : List Char) :
    evalRules s m g content = some ("Q", "60%") ↔
      (¬ (s.is_inter_mode_active = true ∧ s.smart_rules ≠ [])
        ∧ ¬ ((cardValues content).count "J" = 1
              ∧ ∀ v ∈ cardValues content, v ≠ "A" ∧ v ≠ "K" ∧ v ≠ "Q")
        ∧ (cardValues content).count "J" < 2
        ∧ (∀ t, extract_total_points m = some t → t ≤ 40)
        ∧ 3 ≤ count_absence_q s) := by
  have hBiff : ((cardValues content).count "J" == 1 &&
      !((cardValues content).any fun v => v == "A" || v == "K" || v == "Q")) = true ↔
      ((cardValues content).count "J" = 1
        ∧ ∀ v ∈ cardValues content, v ≠ "A" ∧ v ≠ "K" ∧ v ≠ "Q") := by
    rw [Bool.and_eq_true, beq_iff_eq, Bool.not_eq_true', List.any_eq_false]
    constructor
    · rintro ⟨h1, h2⟩
      refine ⟨h1, fun v hv => ?_⟩
      have h3 := h2 v hv
      simpa [not_or, and_assoc] using h3
    · rintro ⟨h1, h2⟩
      refine ⟨h1, fun v hv => ?_⟩
      have h3 := h2 v hv
      simp [h3.1, h3.2.1, h3.2.2]
  have hDiff : (match extract_total_points m with
      | some t => decide (t > 40) | none => false) = true ↔
      ¬ (∀ t, extract_total_points m = some t → t ≤ 40) := by
    cases he : extract_total_points m with
    | none => simp
    | some t0 =>
        simp only [decide_eq_true_iff]
        constructor
        · intro h1 hall
          have h2 := hall t0 rfl
          omega
        · intro h1
          by_contra hnot
          push_neg at hnot
          apply h1
          intro t ht
          injection ht with ht2
          omega
  unfold evalRules
  dsimp only
  by_cases hA : (s.is_inter_mode_active && !s.smart_rules.isEmpty) = true
  · rw [if_pos hA]
    have hA2 : s.is_inter_mode_active = true ∧ s.smart_rules ≠ [] := by simpa using hA
    by_cases hR : (s.smart_rules.any fun rule =>
        rule.cards == get_first_two_cards content) = true
    · rw [if_pos hR]
      refine iff_of_false (by simp) ?_
      rintro ⟨hcon, -⟩
      exact hcon hA2
    · rw [if_neg hR]
      dsimp only
      split
      · refine iff_of_false (by simp) ?_
        rintro ⟨hcon, -⟩
        exact hcon hA2
      · refine iff_of_false (by simp) ?_
        rintro ⟨hcon, -⟩
        exact hcon hA2
  · rw [if_neg hA]
    have hA2 : ¬ (s.is_inter_mode_active = true ∧ s.smart_rules ≠ []) := by
      intro hx
      exact hA (by simp [hx.1, hx.2])
    by_cases hB : ((cardValues content).count "J" == 1 &&
        !((cardValues content).any fun v => v == "A" || v == "K" || v == "Q")) = true
    · rw [if_pos hB]
      refine iff_of_false (by simp) ?_
      rintro ⟨-, hcon, -⟩
      exact hcon (hBiff.mp hB)
    · rw [if_neg hB]
      have hB2 : ¬ ((cardValues content).count "J" = 1
          ∧ ∀ v ∈ cardValues content, v ≠ "A" ∧ v ≠ "K" ∧ v ≠ "Q") :=
        fun hx => hB (hBiff.mpr hx)
      by_cases hC : 2 ≤ (cardValues content).count "J"
      · rw [if_pos hC]
        refine iff_of_false (by simp) ?_
        rintro ⟨-, -, hcon, -⟩
        omega
      · rw [if_neg hC]
        have hC2 : (cardValues content).count "J" < 2 := by omega
        by_cases hD : (match extract_total_points m with
            | some t => decide (t > 40) | none => false) = true
        · rw [if_pos hD]
          refine iff_of_false (by simp) ?_
          rintro ⟨-, -, -, hcon, -⟩
          exact (hDiff.mp hD) hcon
        · rw [if_neg hD]
          have hD2 : ∀ t, extract_total_points m = some t → t ≤ 40 := by
            by_contra hx
            exact hD (hDiff.mpr hx)
          by_cases hE : 3 ≤ count_absence_q s
          · rw [if_pos hE]
            exact iff_of_true rfl ⟨hA2, hB2, hC2, hD2, hE⟩
          · rw [if_neg hE]
            split
            · rename_i pv heq
              apply iff_of_false
              · intro hx
                rw [hx] at heq
                split at heq <;> simp at heq
              · rintro ⟨-, -, -, -, hcon⟩
                exact hE hcon
            · split
              · refine iff_of_false (by simp) ?_
                rintro ⟨-, -, -, -, hcon⟩
                exact hE hcon
              · refine iff_of_false (by simp) ?_
                rintro ⟨-, -, -, -, hcon⟩
                exact hE hcon

/-- C1 (amended): for a single pending `Q` record at target `T` and a
finalized resolving message for game `g`, the verification window is the
offsets 0..2 (not 0..3): with the qualifying rank present at offset
`k ∈ {0,1,2}` the record is resolved with the success glyph indexed by `k`
and popped; with the rank absent at offset 2 (the actual last chance) it is
resolved as failed; with the rank absent at offsets 0..1 it stays pending;
and at offset 3 nothing happens at all, whatever the message contains. -/
theorem claim_C1_thm (s : PState) (T : Nat) (p : PredRecord) (text : String) (g : Nat)
    (hs : s.predictions = [(T, p)])
    (hst : p.status = "pending") (hco : p.predicted_costume = "Q")
    (hg : extract_game_number text = some g) (hg0 : g ≠ 0)
    (hf : unresolvedFilter text = false) :
    (truthy (check_value_Q_in_first_parentheses text) = true →
      0 ≤ (g : Int) - (T : Int) → (g : Int) - (T : Int) ≤ 2 →
      verify s text =
        (some (Resolution.mk "edit_message" T p.message_id
            ("🔵" ++ toString T ++ "🔵:Valeur Q statut :" ++
              statusSymbol ((g : Int) - (T : Int)) ++
              (if p.confidence ≠ "" then " (" ++ p.confidence ++ ")" else ""))),
          { s with predictions := [] }))
    ∧ (truthy (check_value_Q_in_first_parentheses text) = false →
        (g : Int) - (T : Int) = 2 →
        verify s text =
          (some (Resolution.mk "edit_message" T p.message_id
              ("🔵" ++ toString T ++ "🔵:Valeur Q statut :❌" ++
                (if p.confidence ≠ "" then " (" ++ p.confidence ++ ")" else ""))),
            { s with predictions := [] }))
    ∧ (truthy (check_value_Q_in_first_parentheses text) = false →
        0 ≤ (g : Int) - (T : Int) → (g : Int) - (T : Int) ≤ 1 →
        verify s text = (none, s))
    ∧ ((g : Int) - (T : Int) = 3 → verify s text = (none, s)) := by
  have hkeys : stableSort (fun a b => decide (a ≤ b))
      ((([(T, p)]) : List (Nat × PredRecord)).map Prod.fst) = [T] := rfl
  have hlook : lookupKey (T : Int) s.predictions = some p := by
    rw [hs]; simp [lookupKey]
  have hnskip : ¬ (p.status ≠ "pending" ∨ p.predicted_costume ≠ "Q") := by
    simp [hst, hco]
  refine ⟨fun hq h0 h2 => ?_, fun hq h2 => ?_, fun hq h0 h1 => ?_, fun h3 => ?_⟩
  · unfold verify
    rw [hg]
    dsimp only
    rw [if_neg hg0, hs,
      if_neg (by simp : ¬ ((([(T, p)]) : List (Nat × PredRecord)).isEmpty = true)),
      if_neg (by simp [hf] : ¬ (unresolvedFilter text = true)), hkeys]
    unfold verifyLoop
    rw [hlook]
    dsimp only
    rw [if_neg hnskip, if_pos ⟨h0, h2⟩, if_pos hq]
    simp
  · unfold verify
    rw [hg]
    dsimp only
    rw [if_neg hg0, hs,
      if_neg (by simp : ¬ ((([(T, p)]) : List (Nat × PredRecord)).isEmpty = true)),
      if_neg (by simp [hf] : ¬ (unresolvedFilter text = true)), hkeys]
    unfold verifyLoop
    rw [hlook]
    dsimp only
    rw [if_neg hnskip, if_pos ⟨by omega, by omega⟩, if_neg (by simp [hq]), if_pos h2]
    simp
  · unfold verify
    rw [hg]
    dsimp only
    rw [if_neg hg0, hs,
      if_neg (by simp : ¬ ((([(T, p)]) : List (Nat × PredRecord)).isEmpty = true)),
      if_neg (by simp [hf] : ¬ (unresolvedFilter text = true)), hkeys]
    unfold verifyLoop
    rw [hlook]
    dsimp only
    rw [if_neg hnskip, if_pos ⟨h0, by omega⟩, if_neg (by simp [hq]),
      if_neg (by omega : ¬ ((g : Int) - (T : Int) = 2))]
    rfl
  · unfold verify
    rw [hg]
    dsimp only
    rw [if_neg hg0, hs,
      if_neg (by simp : ¬ ((([(T, p)]) : List (Nat × PredRecord)).isEmpty = true)),
      if_neg (by simp [hf] : ¬ (unresolvedFilter text = true)), hkeys]
    unfold verifyLoop
    rw [hlook]
    dsimp only
    rw [if_neg hnskip,
      if_neg (by omega : ¬ (0 ≤ (g : Int) - (T : Int) ∧ (g : Int) - (T : Int) ≤ 2))]
    rfl

/-- C1 witness: the pending record at target 102, resolved by the finalized
message for game 103 (offset 1) whose primary group holds a `Q`, yields the
offset-1 success glyph and the popped ledger. -/
theorem claim_C1_witness :
    verify exampleSingleState "✅ #N103. (Q♥️ 6♦️)" =
      (some (Resolution.mk "edit_message" 102 none
          "🔵102🔵:Valeur Q statut :✅1️⃣ (70%)"),
        { exampleSingleState with predictions := [] }) := by
  have h := (claim_C1_thm exampleSingleState 102 examplePending "✅ #N103. (Q♥️ 6♦️)" 103
    rfl rfl rfl (by decide) (by decide) (by decide)).1 (by decide) (by decide) (by decide)
  simpa using h

/-- C7: `make_prediction(100, "Q", "70%")` renders the pending text
`marker 102 marker, field label, hourglass, confidence tag`, stores a
pending record under target 102, and a later finalized message for game 102
whose primary group holds a `Q` resolves it with exactly the offset-0
success glyph in the edited text. -/
theorem claim_C7_thm :
    exampleRoundTrip.2 = "🔵102🔵:Valeur Q statut :⏳ (70%)"
    ∧ lookupKey 102 exampleRoundTrip.1.predictions = some examplePending
    ∧ (verify exampleRoundTrip.1 "✅ #N102. (Q♥️ 3♦️) - (2♠️ 5♦️)").1 =
        some (Resolution.mk "edit_message" 102 none
          "🔵102🔵:Valeur Q statut :✅0️⃣ (70%)") := by
  decide

/-- C1 counterexample: a pending record targets game 102 and a finalized
message for game 105 — offset 3, the claimed "last chance" — has the
qualifying rank in its primary group, yet `verify` returns no resolution
and leaves the record pending: the code window is 0..2, not 0..3. -/
theorem claim_C1_cex :
    truthy (check_value_Q_in_first_parentheses "✅ #N105. (Q♥️ 5♦️)") = true
    ∧ extract_game_number "✅ #N105. (Q♥️ 5♦️)" = some 105
    ∧ exampleSingleState.predictions = [(102, examplePending)]
    ∧ verify exampleSingleState "✅ #N105. (Q♥️ 5♦️)" = (none, exampleSingleState) := by
  decide

/-- C6 counterexample: with two pending records (targets 100 and 101) the
same finalized message for game 102 yields a resolution on the first call
and another resolution — for the other record — on the second call, so the
second call does not return none as claimed. -/
theorem claim_C6_cex :
    (verify exampleTwoState "✅ #N102. (Q♥️ 3♦️)").1 =
      some (Resolution.mk "edit_message" 100 none "🔵100🔵:Valeur Q statut :✅2️⃣ (70%)")
    ∧ (verify (verify exampleTwoState "✅ #N102. (Q♥️ 3♦️)").2 "✅ #N102. (Q♥️ 3♦️)").1 =
      some (Resolution.mk "edit_message" 101 none "🔵101🔵:Valeur Q statut :✅1️⃣ (70%)") := by
  decide

/-- C5 counterexample: in `card_predictor.py`, `collect_inter_data` has no
duplicate check — starting from a state whose INTER list already records
resolved game 5 (with distinct resolved-game numbers), processing a
finalized `Q` message for game 5 again appends a second entry for the same
resolved game. -/
theorem claim_C5_cex :
    (exampleDupState.inter_data.map (fun e => e.numero_resultat)).Nodup
    ∧ ((CP.collect_inter_data exampleDupState 5 "✅ #N5. (Q♥️ 2♦️)").inter_data.map
        (fun e => e.numero_resultat)) = [5, 5] := by
  decide

/-- C2 counterexample: a message carrying the pending indicator `🕐` (and no
completion glyph) still writes a `SequentialHistoryEntry` for its game,
because `should_predict` calls `collect_inter_data` before the pending
filter. -/
theorem claim_C2_cex :
    initState.sequential_history = []
    ∧ unresolvedFilter "🕐 #N5. (A♠️ 3♦️)" = true
    ∧ containsChar "🕐 #N5. (A♠️ 3♦️)" '🕐' = true
    ∧ (should_predict initState "🕐 #N5. (A♠️ 3♦️)" 0).2.sequential_history =
        [(5, ⟨["A♠️", "3♦️"]⟩)] := by
  decide

/-- C4 counterexample: with three recorded games whose stored cards all
contain a `Q` and an empty INTER list, rule 5 fires with the 60% tier even
though the counter described by the spec — scan backward over the recorded
cards, stop at the first game containing the rank — is 0, not at least 3:
`count_absence_q` does not inspect the recorded cards at all. -/
theorem claim_C4_cex :
    evalRules exampleHistoryState "✅ #N4. (5♠️ 3♦️)" 4 ("5♠️ 3♦️".data) =
      some ("Q", "60%")
    ∧ count_absence_q exampleHistoryState = 3
    ∧ specAbsenceCount exampleHistoryState = 0 := by
  decide

end CardBot
